import Mathlib

/-!
Shallow embedding of the `lean_agent` repository and verification of its
specification claims.

The embedding mirrors four source modules:

* `editing.py`  — the `Edit` record, `apply_edit`, and the deterministic fix
  table `propose_deterministic_fixes`;
* `lean_server.py` — the `Message` record and the `diagnostics` collapse of a
  toolchain invocation result;
* `runner.py` — the `AgentRunner.loop` control loop (repair / innovate /
  document), with the external toolchain and the LLM oracles modelled as
  function-valued parameters;
* `langgraph_app.py` — the five graph nodes and the diagnose → deterministic →
  propose → apply → build cycle with its router.

Python strings are modelled as lists of characters; the external toolchain
(`lake build`, `lake env lean --make`) is modelled as a function from the
current working-file content to a `(returncode, stdout, stderr)` triple; the
LLM client is modelled as an optional record of response functions (absent
exactly when no API key is configured).  The filesystem's single working file
is threaded through the loop states explicitly.
-/

namespace LeanAgent

/-- Python strings are modelled as lists of characters. -/
abbrev Str : Type := List Char

/-- Conversion from a Lean string literal to the `Str` model. -/
def str (s : String) : Str := s.toList

/-- The single-quote character (used inside the diagnostic signatures). -/
def sq : Char := Char.ofNat 39

/-- Whitespace test matching Python `str.strip` for the ASCII range
(space, tab, newline, carriage return, vertical tab, form feed). -/
def isSpace (c : Char) : Bool :=
  c == Char.ofNat 32 || c == Char.ofNat 9 || c == Char.ofNat 10 ||
  c == Char.ofNat 13 || c == Char.ofNat 11 || c == Char.ofNat 12

/-- Python `s.strip()`: drop leading and trailing whitespace. -/
def pyStrip (s : Str) : Str :=
  ((s.dropWhile isSpace).reverse.dropWhile isSpace).reverse

/-- Does `needle` occur at the head of the second argument?
Mirrors the anchored step of Python substring search. -/
def prefixMatch : Str → Str → Bool
  | [], _ => true
  | _ :: _, [] => false
  | n :: ns, h :: hs => n == h && prefixMatch ns hs

/-- Python `needle in haystack`: substring containment. -/
def containsSub (needle : Str) : Str → Bool
  | [] => needle.isEmpty
  | c :: rest => prefixMatch needle (c :: rest) || containsSub needle rest

/-- Python `" ".join(xs)`. -/
def joinSpace : List Str → Str
  | [] => []
  | [s] => s
  | s :: t :: rest => s ++ (Char.ofNat 32 :: joinSpace (t :: rest))

/-- `editing.Edit`: a textual replacement of the half-open character range
`[start, stop)` of the working file (the Python field `end` is renamed `stop`
because `end` is a Lean keyword), plus the file path and a rationale note. -/
structure Edit where
  file : Str
  start : Nat
  stop : Nat
  replacement : Str
  note : Str
  deriving DecidableEq

/-- `editing.apply_edit`: `text[:edit.start] + edit.replacement + text[edit.end:]`. -/
def apply_edit (text : Str) (e : Edit) : Str :=
  text.take e.start ++ e.replacement ++ text.drop e.stop

/-- Trigger substring of the `Real.log` signature:
`unknown identifier 'Real.log'`. -/
def trigLog : Str := str "unknown identifier " ++ (sq :: str "Real.log") ++ [sq]

/-- Trigger substring of the `Classical` signature:
`unknown identifier 'Classical'`. -/
def trigCls : Str := str "unknown identifier " ++ (sq :: str "Classical") ++ [sq]

/-- Remedy marker of the `Real.log` signature (its presence in the source
suppresses the edit). -/
def remLog : Str := str "Mathlib.Analysis.SpecialFunctions.Log.Basic"

/-- Text inserted by the `Real.log` signature (the Python local `ins`). -/
def insLog : Str := str "import Mathlib.Analysis.SpecialFunctions.Log.Basic\n"

/-- Remedy marker of the `Classical` signature. -/
def remCls : Str := str "open Classical"

/-- Text inserted by the `Classical` signature. -/
def insCls : Str := str "open Classical\n"

/-- `editing.propose_deterministic_fixes`: the fixed table of diagnostic
signatures.  Each signature fires when its trigger occurs in the joined error
text and its remedy is not already present in the source; the produced edit
has range `[0, 0)` and replacement `ins + source`, exactly as in the Python. -/
def propose_deterministic_fixes (file : Str) (source : Str) (errors : List Str) :
    List Edit :=
  let err_blob := joinSpace errors
  (if containsSub trigLog err_blob && !(containsSub remLog source) then
      [⟨file, 0, 0, insLog ++ source, str "import log"⟩]
    else []) ++
  (if containsSub trigCls err_blob && !(containsSub remCls source) then
      [⟨file, 0, 0, insCls ++ source, str "open Classical"⟩]
    else [])

/-- `lean_server.Message`: a minimal diagnostic record (positions are always
`none` in the observed system). -/
structure Message where
  file_name : Str
  pos : Option (Nat × Nat)
  end_pos : Option (Nat × Nat)
  severity : Str
  text : Str
  deriving DecidableEq

/-- Result of one external toolchain invocation: `(returncode, stdout, stderr)`. -/
structure ToolResult where
  rc : Int
  out : Str
  err : Str
  deriving DecidableEq

/-- `LeanProject.diagnostics`: collapse a toolchain result into an empty list
(success with no stderr) or a single synthetic message. -/
def diagnostics (file : Str) (r : ToolResult) : List Message :=
  if r.rc = 0 ∧ pyStrip r.err = [] then []
  else
    [⟨file, none, none,
      (if r.rc ≠ 0 then str "error" else str "warning"),
      (if pyStrip r.err = [] then pyStrip r.out else pyStrip r.err)⟩]

/-- Number of error-severity diagnostics, as counted by both loop variants. -/
def countErrors (diags : List Message) : Nat :=
  (diags.filter (fun m => m.severity == str "error")).length

/-- Texts of the error-severity diagnostics, as extracted by both loop variants. -/
def errorTexts (diags : List Message) : List Str :=
  (diags.filter (fun m => m.severity == str "error")).map Message.text

/-- The external collaborators of the control loops, as functions of the
current working-file content: `build` models `lake build`, `check` models
`lake env lean --make` (the invocation behind `diagnostics`), and
`applyPatch` models the `patch` tool — given a diff and the current tree
content it returns a success flag together with the content the tool leaves
behind (possibly a partial application on failure). -/
structure Env where
  build : Str → ToolResult
  check : Str → ToolResult
  applyPatch : Str → Str → Bool × Str

/-- Responses of a configured LLM client.  Each field abstracts one chat
completion (plus the fence stripping of `_strip_fences`); the result is the
`Optional[str]` value returned by the corresponding `_call_llm_*` method when
a client exists. -/
structure LlmBehavior where
  repair : Str → List Str → Option Str
  innovate : Str → Option Str
  document : Str → Option Str

/-- `AgentRunner._call_llm_repair`: returns `none` when no client is
configured; the prompt exposes at most the first 20 error texts. -/
def callLlmRepair (client : Option LlmBehavior) (fileText : Str)
    (errs : List Str) : Option Str :=
  match client with
  | none => none
  | some b => b.repair fileText (errs.take 20)

/-- `AgentRunner._call_llm_innovate`: returns `none` when no client is configured. -/
def callLlmInnovate (client : Option LlmBehavior) (fileText : Str) : Option Str :=
  match client with
  | none => none
  | some b => b.innovate fileText

/-- `AgentRunner._call_llm_document`: returns `none` when no client is configured. -/
def callLlmDocument (client : Option LlmBehavior) (fileText : Str) : Option Str :=
  match client with
  | none => none
  | some b => b.document fileText

/-- Python truthiness of an `Optional[str]`: false for `None` and for the
empty string. -/
def isTruthy : Option Str → Bool
  | none => false
  | some s => !s.isEmpty

/-- State of `AgentRunner.loop`: `target` is the content of the working file
on disk, `src` the loop's tracked content variable, `updates` the remaining
innovation budget, `did_doc` the one-shot documentation flag. -/
structure RunnerState where
  target : Str
  src : Str
  updates : Nat
  did_doc : Bool
  deriving DecidableEq

/-- Outcome of `AgentRunner.loop`: the returned boolean, the final state
(including the final working-file content), and the number of `lake build`
invocations performed. -/
structure LoopOut where
  result : Bool
  fin : RunnerState
  builds : Nat
  deriving DecidableEq

/-- The documentation phase of `AgentRunner.loop` (runner.py lines 290-305):
snapshot `pre`, ask the oracle, and if it returns content write it, rebuild
once, and revert to `pre` if that rebuild fails.  The second component counts
the `lake build` invocations made by the phase. -/
def docStep (env : Env) (client : Option LlmBehavior) (st : RunnerState) :
    RunnerState × Nat :=
  let pre := st.target
  let dc := callLlmDocument client pre
  if isTruthy dc then
    let code := dc.getD []
    let r2 := env.build code
    if r2.rc ≠ 0 then (⟨pre, st.src, st.updates, st.did_doc⟩, 1)
    else (⟨code, code, st.updates, true⟩, 1)
  else (st, 0)

/-- One candidate trial of the runner's deterministic beam (runner.py lines
319-328): apply the edit, write it to the working file, re-diagnose, and
record the candidate as best if its error count is strictly below the best so
far.  The accumulator is `(best_text, best_errs, disk)` where `disk` is the
content currently on the working file. -/
def trialStep (env : Env) (fileP src : Str)
    (acc : Option Str × Nat × Str) (ed : Edit) : Option Str × Nat × Str :=
  let cand := apply_edit src ed
  let err2 := countErrors (diagnostics fileP (env.check cand))
  if err2 < acc.2.1 then (some cand, err2, cand) else (acc.1, acc.2.1, cand)

/-- The runner's beam trial over a list of candidate edits, starting from
`best_text = None` and `best_errs = 10**9`. -/
def beamTrial (env : Env) (fileP src disk0 : Str) (edits : List Edit) :
    Option Str × Nat × Str :=
  edits.foldl (trialStep env fileP src) (none, 1000000000, disk0)

/-- `AgentRunner.loop`, one constructor of fuel per remaining iteration of
`for it in range(1, max_iters + 1)`; fuel `0` is the fall-through
`return False` after the loop.  Branches follow runner.py lines 269-347. -/
def loopAux (env : Env) (client : Option LlmBehavior) (fileP : Str)
    (beam : Nat) : Nat → RunnerState → LoopOut
  | 0, st => ⟨false, st, 0⟩
  | fuel + 1, st =>
    let r := env.build st.target
    if r.rc = 0 ∧ containsSub (str "sorry") st.src = false then
      -- Case A: clean build with no sorry marker.
      if st.updates > 0 then
        let st1 : RunnerState := ⟨st.target, st.src, st.updates - 1, st.did_doc⟩
        let nc := callLlmInnovate client st1.target
        if isTruthy nc then
          let code := nc.getD []
          let out := loopAux env client fileP beam fuel ⟨code, code, st1.updates, st1.did_doc⟩
          ⟨out.result, out.fin, out.builds + 1⟩
        else ⟨true, st1, 1⟩
      else
        if st.did_doc then ⟨true, st, 1⟩
        else
          let p := docStep env client st
          ⟨true, p.1, p.2 + 1⟩
    else
      -- Case B / C: build failed (or sorry present): diagnose and fix.
      let diags := diagnostics fileP (env.check st.target)
      let errs := errorTexts diags
      let edits := propose_deterministic_fixes fileP st.src errs
      if edits ≠ [] then
        let t := beamTrial env fileP st.src st.target (edits.take beam)
        match t.1 with
        | none => ⟨false, ⟨t.2.2, st.src, st.updates, st.did_doc⟩, 1⟩
        | some best =>
          let out := loopAux env client fileP beam fuel ⟨best, best, st.updates, st.did_doc⟩
          ⟨out.result, out.fin, out.builds + 1⟩
      else
        let nc := callLlmRepair client st.target errs
        if isTruthy nc then
          let code := nc.getD []
          let out := loopAux env client fileP beam fuel ⟨code, code, st.updates, st.did_doc⟩
          ⟨out.result, out.fin, out.builds + 1⟩
        else ⟨false, st, 1⟩

/-- `AgentRunner`: construction clamps (`max(1, max_iters)`, `max(1, beam)`)
followed by `loop()` on the initial file content. -/
def runnerLoop (env : Env) (client : Option LlmBehavior) (fileP : Str)
    (beam maxIters updates : Nat) (initial : Str) : LoopOut :=
  loopAux env client fileP (max 1 beam) (max 1 maxIters) ⟨initial, initial, updates, false⟩

/-- The `status` literals of the LangGraph agent state. -/
inductive GStatus
  | ok
  | dirty
  | stuck
  deriving DecidableEq

/-- `langgraph_app.AgentState` plus the content of the working file on disk
(`disk`), which in the Python lives on the filesystem. -/
structure GState where
  file : Str
  iters : Nat
  max_iters : Nat
  status : GStatus
  errors : List Str
  patch : Option Str
  disk : Str
  deriving DecidableEq

/-- `langgraph_app.diagnose_node`. -/
def diagnose_node (env : Env) (s : GState) : GState :=
  let diags := diagnostics s.file (env.check s.disk)
  let errs := errorTexts diags
  { s with errors := errs,
           status := if errs = [] then GStatus.ok else GStatus.dirty }

/-- The candidate loop of `deterministic_fix_node`: apply each edit in turn,
re-diagnose, accept the first whose error count does not exceed the count in
the incoming state, and otherwise revert to `src` and continue. -/
def detFixGo (env : Env) (s : GState) (src : Str) : List Edit → GState
  | [] => { s with disk := src }
  | ed :: rest =>
    let new_src := src.take ed.start ++ ed.replacement ++ src.drop ed.stop
    let diags := diagnostics s.file (env.check new_src)
    let errc := countErrors diags
    if errc ≤ s.errors.length then
      { s with disk := new_src, errors := errorTexts diags }
    else detFixGo env s src rest

/-- `langgraph_app.deterministic_fix_node`. -/
def deterministic_fix_node (env : Env) (s : GState) : GState :=
  let src := s.disk
  let edits := propose_deterministic_fixes s.file src s.errors
  if edits = [] then s
  else detFixGo env s src edits

/-- `langgraph_app.propose_llm_patch_node`: with no API key the node is a
no-op leaving `patch = None`; otherwise the model's response content (an
arbitrary function of the first 20 error texts and the file name) is stored. -/
def propose_llm_patch_node (orc : Option (List Str → Str → Str)) (s : GState) :
    GState :=
  match orc with
  | none => { s with patch := none }
  | some f => { s with patch := some (f (s.errors.take 20) s.file) }

/-- `langgraph_app.apply_patch_node`: skip empty/whitespace patches; otherwise
run the patch tool and mark the state `stuck` on failure. -/
def apply_patch_node (env : Env) (s : GState) : GState :=
  match s.patch with
  | none => s
  | some p =>
    if pyStrip p = [] then s
    else
      let res := env.applyPatch p s.disk
      if res.1 then { s with disk := res.2 }
      else { s with status := GStatus.stuck, disk := res.2 }

/-- `langgraph_app.build_node`: run `lake build`, set `ok`/`dirty`, replace
the error list with the raw stderr blob when it is non-empty, and increment
the iteration counter. -/
def build_node (env : Env) (s : GState) : GState :=
  let r := env.build s.disk
  if r.rc = 0 then
    { s with status := GStatus.ok, errors := [], iters := s.iters + 1 }
  else if r.err ≠ [] then
    { s with status := GStatus.dirty, errors := [r.err], iters := s.iters + 1 }
  else
    { s with status := GStatus.dirty, iters := s.iters + 1 }

/-- Destination of the conditional edge after `build`. -/
inductive Route
  | halt
  | diagnose
  deriving DecidableEq

/-- `langgraph_app.router_after_build`: stop on `ok` or budget exhaustion,
otherwise cycle back to `diagnose`. -/
def router_after_build (s : GState) : Route :=
  if s.status = GStatus.ok ∨ s.iters ≥ s.max_iters then Route.halt
  else Route.diagnose

/-- One full cycle of the compiled graph:
diagnose → deterministic → propose → apply → build. -/
def graphCycle (env : Env) (orc : Option (List Str → Str → Str)) (s : GState) :
    GState :=
  build_node env (apply_patch_node env (propose_llm_patch_node orc
    (deterministic_fix_node env (diagnose_node env s))))

/-- Execution of the graph: repeat cycles while the router sends control back
to `diagnose`; the fuel bounds the number of cycles. -/
def graphRun (env : Env) (orc : Option (List Str → Str → Str)) :
    Nat → GState → GState
  | 0, s => s
  | fuel + 1, s =>
    let s2 := graphCycle env orc s
    if router_after_build s2 = Route.diagnose then graphRun env orc fuel s2
    else s2

/-- The full LangGraph session: since every cycle increments `iters` and the
router stops at `max_iters`, a fuel of `max_iters` cycles is exact. -/
def graphLoop (env : Env) (orc : Option (List Str → Str → Str)) (s0 : GState) :
    GState :=
  graphRun env orc s0.max_iters s0

/-! Concrete environments and states used to evaluate the theorems on
explicit inputs. -/

/-- A toolchain whose build and single-file check always fail with an error
message matching no deterministic-fix signature, and whose patch tool always
reports failure leaving the tree unchanged. -/
def envFail : Env :=
  ⟨fun _ => ⟨1, [], str "mystery"⟩, fun _ => ⟨1, [], str "mystery"⟩,
   fun _ d => (false, d)⟩

/-- A toolchain for which everything succeeds. -/
def envClean : Env :=
  ⟨fun _ => ⟨0, [], []⟩, fun _ => ⟨0, [], []⟩, fun _ d => (true, d)⟩

/-- A toolchain that accepts every file except the documented version
`"DOC"`, whose build fails. -/
def envDocFail : Env :=
  ⟨fun c => if c = str "DOC" then ⟨1, [], []⟩ else ⟨0, [], []⟩,
   fun _ => ⟨0, [], []⟩, fun _ d => (true, d)⟩

/-- A configured LLM client that declines repair and innovation but returns
the documentation text `"DOC"`. -/
def clientDoc : LlmBehavior :=
  ⟨fun _ _ => none, fun _ => none, fun _ => some (str "DOC")⟩

/-- A runner state holding the compiled file content `"pre"`. -/
def stPre : RunnerState := ⟨str "pre", str "pre", 0, false⟩

/-- A patch oracle that always proposes the diff text `"dd"`. -/
def orcDiff : Option (List Str → Str → Str) := some (fun _ _ => str "dd")

/-- A graph state carrying a non-empty patch, with budget remaining. -/
def sPatch : GState :=
  ⟨[], 1, 20, GStatus.dirty, [], some (str "dd"), str "content"⟩

/-- A fresh dirty graph state with a budget of two iterations. -/
def sDirty : GState := ⟨[], 0, 2, GStatus.dirty, [], none, []⟩

/-- A source file used for the duplication counterexample. -/
def srcDup : Str := str "example : True := trivial\n"

/-! Helper lemmas shared by the claim theorems. -/

/-- The diagnostic collapse never produces more than one message. -/
lemma length_diagnostics_le_one (f : Str) (r : ToolResult) :
    (diagnostics f r).length ≤ 1 := by
  unfold diagnostics
  split <;> simp

/-- The per-candidate error count computed from the diagnostic collapse is
always 0 or 1. -/
lemma countErrors_diagnostics_le_one (f : Str) (r : ToolResult) :
    countErrors (diagnostics f r) ≤ 1 := by
  have h := List.length_filter_le (fun m => m.severity == str "error") (diagnostics f r)
  exact le_trans h (length_diagnostics_le_one f r)

/-- The empty needle is a substring of everything. -/
lemma containsSub_needle_nil (l : Str) : containsSub [] l = true := by
  induction l with
  | nil => rfl
  | cons c rest ih => simp [containsSub, prefixMatch]

/-- Extending the haystack on the right preserves an anchored match. -/
lemma prefixMatch_append {n h : Str} (t : Str)
    (hp : prefixMatch n h = true) : prefixMatch n (h ++ t) = true := by
  induction n generalizing h with
  | nil => rfl
  | cons a as ih =>
    cases h with
    | nil => simp [prefixMatch] at hp
    | cons b bs =>
      simp only [prefixMatch, Bool.and_eq_true] at hp
      simp only [List.cons_append, prefixMatch, Bool.and_eq_true]
      exact ⟨hp.1, ih hp.2⟩

/-- Extending the haystack on the right preserves substring containment. -/
lemma containsSub_append_right {n h : Str} (t : Str)
    (hc : containsSub n h = true) : containsSub n (h ++ t) = true := by
  induction h with
  | nil =>
    have : n = [] := by
      simpa [containsSub, List.isEmpty_iff] using hc
    subst this
    exact containsSub_needle_nil t
  | cons c rest ih =>
    simp only [containsSub, Bool.or_eq_true] at hc
    rcases hc with hp | hrest
    · simp only [List.cons_append, containsSub, Bool.or_eq_true]
      exact Or.inl (prefixMatch_append t hp)
    · simp only [List.cons_append, containsSub, Bool.or_eq_true]
      exact Or.inr (ih hrest)

/-- With an empty error list, the deterministic fix table proposes nothing. -/
lemma propose_errors_nil (fp src : Str) :
    propose_deterministic_fixes fp src [] = [] := by
  have h1 : containsSub trigLog [] = false := by decide
  have h2 : containsSub trigCls [] = false := by decide
  simp [propose_deterministic_fixes, joinSpace, h1, h2]

/-- A non-empty proposal forces a non-empty error list. -/
lemma errors_ne_nil_of_propose_ne_nil {fp src : Str} {errs : List Str}
    (h : propose_deterministic_fixes fp src errs ≠ []) : errs ≠ [] := by
  intro he
  subst he
  exact h (propose_errors_nil fp src)

/-- Characterization of membership in the deterministic fix table: an edit is
either the `Real.log` import edit (and the import is absent from the source)
or the `open Classical` edit (and that line is absent from the source). -/
lemma mem_propose {fp src : Str} {errs : List Str} {e : Edit}
    (h : e ∈ propose_deterministic_fixes fp src errs) :
    (e = ⟨fp, 0, 0, insLog ++ src, str "import log"⟩ ∧
      containsSub remLog src = false) ∨
    (e = ⟨fp, 0, 0, insCls ++ src, str "open Classical"⟩ ∧
      containsSub remCls src = false) := by
  unfold propose_deterministic_fixes at h
  rcases List.mem_append.mp h with h1 | h2
  · left
    split at h1
    · rename_i hcond
      rw [Bool.and_eq_true, Bool.not_eq_true'] at hcond
      exact ⟨List.mem_singleton.mp h1, hcond.2⟩
    · simp at h1
  · right
    split at h2
    · rename_i hcond
      rw [Bool.and_eq_true, Bool.not_eq_true'] at hcond
      exact ⟨List.mem_singleton.mp h2, hcond.2⟩
    · simp at h2

/-- The candidate loop of the graph's deterministic node either leaves the
original text on disk or leaves an accepted candidate whose error count does
not exceed the incoming error count. -/
lemma detFixGo_spec (env : Env) (s : GState) (src : Str) (edits : List Edit) :
    (detFixGo env s src edits).disk = src ∨
    countErrors (diagnostics s.file (env.check (detFixGo env s src edits).disk)) ≤
      s.errors.length := by
  induction edits with
  | nil => left; rfl
  | cons ed rest ih =>
    simp only [detFixGo]
    split
    · rename_i hacc
      right
      exact hacc
    · exact ih

/-- The documentation phase performs at most one rebuild. -/
lemma docStep_snd_le (env : Env) (client : Option LlmBehavior)
    (st : RunnerState) : (docStep env client st).2 ≤ 1 := by
  unfold docStep
  dsimp only
  split
  · split <;> simp
  · simp

/-- The runner performs at most `fuel + 1` builds in `fuel` iterations (the
possible extra build is the documentation-verification rebuild). -/
lemma loopAux_builds_le (env : Env) (client : Option LlmBehavior)
    (fileP : Str) (beam : Nat) :
    ∀ fuel st, (loopAux env client fileP beam fuel st).builds ≤ fuel + 1 := by
  intro fuel
  induction fuel with
  | zero => intro st; simp [loopAux]
  | succ f ih =>
    intro st
    simp only [loopAux]
    split
    · split
      · split
        · simpa using Nat.succ_le_succ (ih _)
        · simp
      · split
        · simp
        · have := docStep_snd_le env client st
          simp only []
          omega
    · split
      · split
        · simp
        · simpa using Nat.succ_le_succ (ih _)
      · split
        · simpa using Nat.succ_le_succ (ih _)
        · simp

/-- All graph nodes except `build` leave the iteration counter unchanged. -/
lemma detFixGo_iters (env : Env) (s : GState) (src : Str) (edits : List Edit) :
    (detFixGo env s src edits).iters = s.iters := by
  induction edits with
  | nil => rfl
  | cons ed rest ih =>
    simp only [detFixGo]
    split
    · rfl
    · exact ih

lemma detFixGo_max (env : Env) (s : GState) (src : Str) (edits : List Edit) :
    (detFixGo env s src edits).max_iters = s.max_iters := by
  induction edits with
  | nil => rfl
  | cons ed rest ih =>
    simp only [detFixGo]
    split
    · rfl
    · exact ih

lemma deterministic_fix_node_iters (env : Env) (s : GState) :
    (deterministic_fix_node env s).iters = s.iters := by
  unfold deterministic_fix_node
  dsimp only
  split
  · rfl
  · exact detFixGo_iters env s s.disk _

lemma deterministic_fix_node_max (env : Env) (s : GState) :
    (deterministic_fix_node env s).max_iters = s.max_iters := by
  unfold deterministic_fix_node
  dsimp only
  split
  · rfl
  · exact detFixGo_max env s s.disk _

lemma propose_llm_patch_node_iters (orc : Option (List Str → Str → Str))
    (s : GState) : (propose_llm_patch_node orc s).iters = s.iters := by
  unfold propose_llm_patch_node
  cases orc <;> rfl

lemma propose_llm_patch_node_max (orc : Option (List Str → Str → Str))
    (s : GState) : (propose_llm_patch_node orc s).max_iters = s.max_iters := by
  unfold propose_llm_patch_node
  cases orc <;> rfl

lemma apply_patch_node_iters (env : Env) (s : GState) :
    (apply_patch_node env s).iters = s.iters := by
  unfold apply_patch_node
  cases s.patch with
  | none => rfl
  | some p =>
    simp only []
    split
    · rfl
    · split <;> rfl

lemma apply_patch_node_max (env : Env) (s : GState) :
    (apply_patch_node env s).max_iters = s.max_iters := by
  unfold apply_patch_node
  cases s.patch with
  | none => rfl
  | some p =>
    simp only []
    split
    · rfl
    · split <;> rfl

lemma diagnose_node_iters (env : Env) (s : GState) :
    (diagnose_node env s).iters = s.iters := rfl

lemma diagnose_node_max (env : Env) (s : GState) :
    (diagnose_node env s).max_iters = s.max_iters := rfl

/-- The build node increments the iteration counter by exactly one. -/
lemma build_node_iters (env : Env) (s : GState) :
    (build_node env s).iters = s.iters + 1 := by
  unfold build_node
  dsimp only
  split
  · rfl
  · split <;> rfl

lemma build_node_max (env : Env) (s : GState) :
    (build_node env s).max_iters = s.max_iters := by
  unfold build_node
  dsimp only
  split
  · rfl
  · split <;> rfl

/-- One graph cycle increments the iteration counter by exactly one. -/
lemma graphCycle_iters (env : Env) (orc : Option (List Str → Str → Str))
    (s : GState) : (graphCycle env orc s).iters = s.iters + 1 := by
  unfold graphCycle
  rw [build_node_iters, apply_patch_node_iters, propose_llm_patch_node_iters,
    deterministic_fix_node_iters, diagnose_node_iters]

lemma graphCycle_max (env : Env) (orc : Option (List Str → Str → Str))
    (s : GState) : (graphCycle env orc s).max_iters = s.max_iters := by
  unfold graphCycle
  rw [build_node_max, apply_patch_node_max, propose_llm_patch_node_max,
    deterministic_fix_node_max, diagnose_node_max]

/-- The graph run never drives the iteration counter past the budget when it
starts strictly below it. -/
lemma graphRun_iters_le (env : Env) (orc : Option (List Str → Str → Str)) :
    ∀ fuel s, s.iters < s.max_iters →
      (graphRun env orc fuel s).iters ≤ s.max_iters := by
  intro fuel
  induction fuel with
  | zero => intro s h; exact Nat.le_of_lt h
  | succ f ih =>
    intro s h
    simp only [graphRun]
    split
    · rename_i hr
      have hlt : (graphCycle env orc s).iters < (graphCycle env orc s).max_iters := by
        by_contra hge
        have : router_after_build (graphCycle env orc s) = Route.halt := by
          unfold router_after_build
          rw [if_pos (Or.inr (Nat.le_of_not_lt hge))]
        rw [this] at hr
        exact Route.noConfusion hr
      have := ih (graphCycle env orc s) hlt
      rwa [graphCycle_max] at this
    · rw [graphCycle_iters]
      exact Nat.succ_le_of_lt h

/-- When every build fails, the build node reports `dirty`. -/
lemma build_node_dirty {env : Env} (s : GState)
    (h : (env.build s.disk).rc ≠ 0) : (build_node env s).status = GStatus.dirty := by
  unfold build_node
  rw [if_neg h]
  split <;> rfl

/-- When every build fails, a dirty session stays dirty through the whole
graph run (in particular it never throws and never reports success). -/
lemma graphRun_dirty (env : Env) (orc : Option (List Str → Str → Str))
    (hfail : ∀ c, (env.build c).rc ≠ 0) :
    ∀ fuel s, s.status = GStatus.dirty →
      (graphRun env orc fuel s).status = GStatus.dirty := by
  intro fuel
  induction fuel with
  | zero => intro s h; exact h
  | succ f ih =>
    intro s h
    simp only [graphRun]
    have hc : (graphCycle env orc s).status = GStatus.dirty :=
      build_node_dirty _ (hfail _)
    split
    · exact ih _ hc
    · exact hc

/-- A beam-trial step preserves the presence of a best candidate. -/
lemma trialStep_keeps_some (env : Env) (fileP src : Str)
    (acc : Option Str × Nat × Str) (ed : Edit) (h : acc.1.isSome = true) :
    (trialStep env fileP src acc ed).1.isSome = true := by
  unfold trialStep
  dsimp only
  split
  · rfl
  · exact h

/-- Folding beam-trial steps preserves the presence of a best candidate. -/
lemma foldl_trialStep_keeps_some (env : Env) (fileP src : Str) :
    ∀ (l : List Edit) (acc : Option Str × Nat × Str), acc.1.isSome = true →
      ((l.foldl (trialStep env fileP src) acc)).1.isSome = true := by
  intro l
  induction l with
  | nil => intro acc h; exact h
  | cons ed rest ih =>
    intro acc h
    exact ih _ (trialStep_keeps_some env fileP src acc ed h)

/-! Claim theorems. -/

/-- C9: for every file and toolchain result, the Diagnostic Collector returns
a sequence of length at most one, so every per-candidate error count compared
by either loop variant's acceptance policy is 0 or 1. -/
theorem C9_diagnostics_singleton (f : Str) (r : ToolResult) :
    (diagnostics f r).length ≤ 1 ∧ countErrors (diagnostics f r) ≤ 1 :=
  ⟨length_diagnostics_le_one f r, countErrors_diagnostics_le_one f r⟩

/-- C7: the Diagnostic Collector returns an empty sequence exactly when the
toolchain exits with code 0 and its error stream strips to empty; on a
nonzero exit it returns a single synthetic diagnostic of severity `error`
whose text is the (stripped) stderr, or the (stripped) stdout when stderr
strips to empty. -/
theorem C7_diagnostics_collapse (f : Str) (r : ToolResult) :
    (diagnostics f r = [] ↔ (r.rc = 0 ∧ pyStrip r.err = [])) ∧
    (r.rc ≠ 0 →
      ∃ m, diagnostics f r = [m] ∧ m.severity = str "error" ∧
        m.text = (if pyStrip r.err = [] then pyStrip r.out else pyStrip r.err)) := by
  constructor
  · constructor
    · intro h
      by_contra hc
      rw [diagnostics, if_neg hc] at h
      exact List.noConfusion h
    · intro h
      rw [diagnostics, if_pos h]
  · intro hrc
    have hne : ¬ (r.rc = 0 ∧ pyStrip r.err = []) := fun hand => hrc hand.1
    refine ⟨⟨f, none, none, (if r.rc ≠ 0 then str "error" else str "warning"),
      (if pyStrip r.err = [] then pyStrip r.out else pyStrip r.err)⟩, ?_, ?_, rfl⟩
    · rw [diagnostics, if_neg hne]
    · simp only [if_pos hrc]

/-- C7 witness: evaluation of the collapse at a concrete failing invocation. -/
theorem C7_diagnostics_collapse_witness :
    ∃ m, diagnostics [] (⟨1, str "stdout text", str " stderr text "⟩ : ToolResult) = [m] ∧
      m.severity = str "error" ∧
      m.text = (if pyStrip (str " stderr text ") = [] then pyStrip (str "stdout text")
                else pyStrip (str " stderr text ")) :=
  (C7_diagnostics_collapse [] ⟨1, str "stdout text", str " stderr text "⟩).2 (by decide)

/-- C5: on a source without the `Real.log` import and an error list matching
only the `Real.log` signature, the Fix Engine proposes exactly one edit, but
applying it with `apply_edit` yields the import line followed by TWO copies
of the source, not the claimed pure insertion: the edit stores
`ins + source` as its replacement while its range is `[0, 0)`, so `apply_edit`
prepends the whole of `ins + source` to the source instead of replacing it. -/
theorem C5_real_log_edit_duplicates_source :
    propose_deterministic_fixes [] srcDup [trigLog] =
      [⟨[], 0, 0, insLog ++ srcDup, str "import log"⟩] ∧
    apply_edit srcDup ⟨[], 0, 0, insLog ++ srcDup, str "import log"⟩ =
      insLog ++ srcDup ++ srcDup ∧
    insLog ++ srcDup ++ srcDup ≠ insLog ++ srcDup := by decide

/-- C3: a failing patch application does mark the state `stuck`, but the
unconditional `apply → build` edge lets `build_node` overwrite the status
with `dirty`, and `router_after_build` (which never inspects `stuck`) routes
back to `diagnose`; running the full graph from such a state performs all 20
budgeted iterations instead of exiting.  This contradicts the stated intent
of `apply_patch_node` (mark `stuck` "so that the graph can terminate"). -/
theorem C3_patch_failure_not_terminal :
    (apply_patch_node envFail sPatch).status = GStatus.stuck ∧
    (build_node envFail (apply_patch_node envFail sPatch)).status = GStatus.dirty ∧
    router_after_build (build_node envFail (apply_patch_node envFail sPatch)) =
      Route.diagnose ∧
    (graphLoop envFail orcDiff { sPatch with iters := 0 }).iters = 20 ∧
    (graphLoop envFail orcDiff { sPatch with iters := 0 }).status = GStatus.dirty := by
  decide

/-- C1: in both loop variants, any deterministic candidate the loop accepts
has a post-edit error count not exceeding the error count measured before any
edit was tried.  For the runner's beam this holds because any non-empty
proposal forces a non-empty pre-trial error list while the collapsed
diagnostics bound every post-edit count by one; for the graph node it holds
because acceptance is guarded by `errc <= len(s["errors"])`. -/
theorem C1_accepted_edit_nonregression :
    (∀ (env : Env) (fileP src disk0 : Str) (errs : List Str) (beam : Nat)
        (accepted : Str),
      propose_deterministic_fixes fileP src errs ≠ [] →
      (beamTrial env fileP src disk0
          ((propose_deterministic_fixes fileP src errs).take beam)).1 = some accepted →
      countErrors (diagnostics fileP (env.check accepted)) ≤ errs.length) ∧
    (∀ (env : Env) (s : GState),
      (deterministic_fix_node env s).disk = s.disk ∨
      countErrors (diagnostics s.file
          (env.check (deterministic_fix_node env s).disk)) ≤ s.errors.length) := by
  constructor
  · intro env fileP src disk0 errs beam accepted hne _
    have herrs : errs ≠ [] := errors_ne_nil_of_propose_ne_nil hne
    have h1 : 1 ≤ errs.length := List.length_pos.mpr herrs
    exact le_trans (countErrors_diagnostics_le_one fileP (env.check accepted)) h1
  · intro env s
    simp only [deterministic_fix_node]
    split
    · left; rfl
    · exact detFixGo_spec env s s.disk _

/-- C1 witness: both acceptance policies evaluated on concrete inputs. -/
theorem C1_accepted_edit_nonregression_witness :
    countErrors (diagnostics [] (envFail.check (insLog ++ []))) ≤
      ([trigLog] : List Str).length ∧
    ((deterministic_fix_node envFail sDirty).disk = sDirty.disk ∨
      countErrors (diagnostics sDirty.file
          (envFail.check (deterministic_fix_node envFail sDirty).disk)) ≤
        sDirty.errors.length) :=
  ⟨C1_accepted_edit_nonregression.1 envFail [] [] [] [trigLog] 3 (insLog ++ [])
      (by decide) (by decide),
   C1_accepted_edit_nonregression.2 envFail sDirty⟩

/-- C2: in the documentation phase of the runner loop, if the oracle returns
content (which is then written to the working file) and the subsequent
rebuild fails, the working file's content after the step equals its content
immediately before the step, byte for byte. -/
theorem C2_documentation_revert (env : Env) (client : Option LlmBehavior)
    (fileP : Str) (beam fuel : Nat) (st : RunnerState)
    (hbuild : (env.build st.target).rc = 0)
    (hmarker : containsSub (str "sorry") st.src = false)
    (hupd : st.updates = 0)
    (hdoc : st.did_doc = false)
    (htru : isTruthy (callLlmDocument client st.target) = true)
    (hfail : (env.build ((callLlmDocument client st.target).getD [])).rc ≠ 0) :
    (loopAux env client fileP beam (fuel + 1) st).fin.target = st.target := by
  simp only [loopAux]
  rw [if_pos ⟨hbuild, hmarker⟩, hupd, hdoc]
  rw [if_neg (lt_irrefl 0)]
  rw [if_neg Bool.false_ne_true]
  show (docStep env client st).1.target = st.target
  unfold docStep
  dsimp only
  rw [if_pos htru, if_pos hfail]

/-- C2 witness: a concrete run in which the documented file fails to rebuild
and the pre-documentation content is restored. -/
theorem C2_documentation_revert_witness :
    (loopAux envDocFail (some clientDoc) [] 3 1 stPre).fin.target = stPre.target :=
  C2_documentation_revert envDocFail (some clientDoc) [] 3 0 stPre
    (by decide) (by decide) rfl rfl (by decide) (by decide)

/-- C6: the idempotence guard of the Deterministic Fix Engine: a source that
already contains a signature's remedy receives no edit for that signature,
and in particular re-running the engine on text produced by applying one of
its edits never proposes that signature again. -/
theorem C6_idempotence_guard :
    (∀ (fp src : Str) (errs : List Str), containsSub remLog src = true →
      ∀ e ∈ propose_deterministic_fixes fp src errs, e.note ≠ str "import log") ∧
    (∀ (fp src : Str) (errs : List Str), containsSub remCls src = true →
      ∀ e ∈ propose_deterministic_fixes fp src errs, e.note ≠ str "open Classical") ∧
    (∀ (fp src : Str) (errs : List Str) (e : Edit),
      e ∈ propose_deterministic_fixes fp src errs →
      ∀ (errs2 : List Str) (e2 : Edit),
        e2 ∈ propose_deterministic_fixes fp (apply_edit src e) errs2 →
        e2.note ≠ e.note) := by
  refine ⟨?_, ?_, ?_⟩
  · intro fp src errs hrem e he
    rcases mem_propose he with ⟨heq, hno⟩ | ⟨heq, _⟩
    · rw [hrem] at hno
      exact Bool.noConfusion hno
    · subst heq
      exact (by decide : str "open Classical" ≠ str "import log")
  · intro fp src errs hrem e he
    rcases mem_propose he with ⟨heq, _⟩ | ⟨heq, hno⟩
    · subst heq
      exact (by decide : str "import log" ≠ str "open Classical")
    · rw [hrem] at hno
      exact Bool.noConfusion hno
  · intro fp src errs e he errs2 e2 he2
    rcases mem_propose he with ⟨heq, _⟩ | ⟨heq, _⟩
    · subst heq
      have happ : apply_edit src (⟨fp, 0, 0, insLog ++ src, str "import log"⟩ : Edit) =
          (insLog ++ src) ++ src := by
        simp [apply_edit]
      rw [happ] at he2
      have hcont : containsSub remLog ((insLog ++ src) ++ src) = true :=
        containsSub_append_right src
          (containsSub_append_right src (by decide : containsSub remLog insLog = true))
      rcases mem_propose he2 with ⟨_, hno2⟩ | ⟨heq2, _⟩
      · rw [hcont] at hno2
        exact Bool.noConfusion hno2
      · subst heq2
        exact (by decide : str "open Classical" ≠ str "import log")
    · subst heq
      have happ : apply_edit src (⟨fp, 0, 0, insCls ++ src, str "open Classical"⟩ : Edit) =
          (insCls ++ src) ++ src := by
        simp [apply_edit]
      rw [happ] at he2
      have hcont : containsSub remCls ((insCls ++ src) ++ src) = true :=
        containsSub_append_right src
          (containsSub_append_right src (by decide : containsSub remCls insCls = true))
      rcases mem_propose he2 with ⟨heq2, _⟩ | ⟨_, hno2⟩
      · subst heq2
        exact (by decide : str "import log" ≠ str "open Classical")
      · rw [hcont] at hno2
        exact Bool.noConfusion hno2

/-- C6 witness: the three guards evaluated on concrete sources and errors. -/
theorem C6_idempotence_guard_witness :
    (⟨[], 0, 0, insCls ++ remLog, str "open Classical"⟩ : Edit).note ≠ str "import log" ∧
    (⟨[], 0, 0, insLog ++ remCls, str "import log"⟩ : Edit).note ≠ str "open Classical" ∧
    (⟨[], 0, 0, insCls ++ apply_edit [] ⟨[], 0, 0, insLog ++ [], str "import log"⟩,
        str "open Classical"⟩ : Edit).note ≠
      (⟨[], 0, 0, insLog ++ [], str "import log"⟩ : Edit).note :=
  ⟨C6_idempotence_guard.1 [] remLog [trigLog, trigCls] (by decide) _ (by decide),
   C6_idempotence_guard.2.1 [] remCls [trigLog, trigCls] (by decide) _ (by decide),
   C6_idempotence_guard.2.2 [] [] [trigLog] ⟨[], 0, 0, insLog ++ [], str "import log"⟩
     (by decide) [trigCls] _ (by decide)⟩

/-- C8: with no credential configured, each of the three oracle calls returns
`none` rather than raising, the graph's propose node degrades to `patch =
None`, the runner returns `False` on a file whose error signature the Fix
Engine does not recognize, and a dirty graph session stays in a failure
status throughout — all without any exceptional control flow. -/
theorem C8_oracle_absent_graceful :
    (∀ (ft : Str) (errs : List Str), callLlmRepair none ft errs = none) ∧
    (∀ ft : Str, callLlmInnovate none ft = none) ∧
    (∀ ft : Str, callLlmDocument none ft = none) ∧
    (∀ s : GState, propose_llm_patch_node none s = { s with patch := none }) ∧
    (∀ (env : Env) (fileP : Str) (beam maxIters updates : Nat) (initial : Str),
      (env.build initial).rc ≠ 0 →
      propose_deterministic_fixes fileP initial
        (errorTexts (diagnostics fileP (env.check initial))) = [] →
      (runnerLoop env none fileP beam maxIters updates initial).result = false) ∧
    (∀ (env : Env) (orc : Option (List Str → Str → Str)) (fuel : Nat) (s : GState),
      (∀ c, (env.build c).rc ≠ 0) → s.status = GStatus.dirty →
      (graphRun env orc fuel s).status = GStatus.dirty) := by
  refine ⟨fun _ _ => rfl, fun _ => rfl, fun _ => rfl, fun _ => rfl, ?_, ?_⟩
  · intro env fileP beam maxIters updates initial hrc hprop
    unfold runnerLoop
    have hF : max 1 maxIters = (max 1 maxIters - 1) + 1 := by omega
    rw [hF]
    simp only [loopAux]
    rw [if_neg (fun hand => hrc hand.1)]
    rw [if_neg (fun hne => hne hprop)]
    rfl
  · intro env orc fuel s hfail hs
    exact graphRun_dirty env orc hfail fuel s hs

/-- C8 witness: the graceful degradations evaluated on concrete inputs. -/
theorem C8_oracle_absent_graceful_witness :
    callLlmRepair none [] [] = none ∧
    callLlmInnovate none [] = none ∧
    callLlmDocument none [] = none ∧
    propose_llm_patch_node none sDirty = { sDirty with patch := none } ∧
    (runnerLoop envFail none [] 3 2 0 []).result = false ∧
    (graphRun envFail none 2 sDirty).status = GStatus.dirty :=
  ⟨C8_oracle_absent_graceful.1 [] [],
   C8_oracle_absent_graceful.2.1 [],
   C8_oracle_absent_graceful.2.2.1 [],
   C8_oracle_absent_graceful.2.2.2.1 sDirty,
   C8_oracle_absent_graceful.2.2.2.2.1 envFail [] 3 2 0 [] (by decide) (by decide),
   C8_oracle_absent_graceful.2.2.2.2.2 envFail none 2 sDirty (fun _ => one_ne_zero) rfl⟩

/-- C10: whenever the beam trial of the richer loop variant is run on at
least one candidate edit, it records some best candidate (the first tried
candidate's error count is at most 1, hence below the `10**9` sentinel), so
the "no viable deterministic candidate" failure branch is unreachable. -/
theorem C10_beam_always_accepts (env : Env) (fileP src disk0 : Str)
    (edits : List Edit) (beam : Nat) (h1 : edits ≠ []) (h2 : 1 ≤ beam) :
    (beamTrial env fileP src disk0 (edits.take beam)).1 ≠ none := by
  cases edits with
  | nil => exact absurd rfl h1
  | cons e rest =>
    obtain ⟨b, rfl⟩ : ∃ b, beam = b + 1 := ⟨beam - 1, by omega⟩
    have hstep : (trialStep env fileP src (none, 1000000000, disk0) e).1.isSome = true := by
      unfold trialStep
      dsimp only
      rw [if_pos (lt_of_le_of_lt
        (countErrors_diagnostics_le_one fileP (env.check (apply_edit src e)))
        (by norm_num))]
      rfl
    have hsome := foldl_trialStep_keeps_some env fileP src (rest.take b) _ hstep
    unfold beamTrial
    rw [List.take_succ_cons, List.foldl_cons]
    intro hnone
    rw [hnone] at hsome
    simp at hsome

/-- C10 witness: the beam trial evaluated on a concrete singleton beam. -/
theorem C10_beam_always_accepts_witness :
    (beamTrial envFail [] [] []
        (([⟨[], 0, 0, insLog, str "import log"⟩] : List Edit).take 3)).1 ≠ none :=
  C10_beam_always_accepts envFail [] [] [] [⟨[], 0, 0, insLog, str "import log"⟩] 3
    (by decide) (by decide)

/-- C4 counterexample: with `max_iters = 1`, a clean build, no innovation
budget and a documentation oracle that returns content, the runner performs
two `lake build` invocations (the loop build plus the documentation
verification rebuild), exceeding the claimed `max_iters` bound. -/
theorem C4_budget_counterexample :
    (runnerLoop envClean (some clientDoc) [] 3 1 0 []).builds = 2 ∧
    ¬ ((runnerLoop envClean (some clientDoc) [] 3 1 0 []).builds ≤ 1) := by decide

/-- C4 (amended): both loops terminate for every oracle behavior; the graph
variant performs at most `max_iters` build attempts, and the runner variant
performs at most `max_iters + 1` build attempts, the possible extra one being
the single documentation-verification rebuild. -/
theorem C4_termination_build_bound :
    (∀ (env : Env) (client : Option LlmBehavior) (fileP : Str)
        (beam maxIters updates : Nat) (initial : Str), 1 ≤ maxIters →
      (runnerLoop env client fileP beam maxIters updates initial).builds ≤ maxIters + 1) ∧
    (∀ (env : Env) (orc : Option (List Str → Str → Str)) (s0 : GState),
      s0.iters = 0 → 1 ≤ s0.max_iters →
      (graphLoop env orc s0).iters ≤ s0.max_iters) := by
  constructor
  · intro env client fileP beam maxIters updates initial h
    unfold runnerLoop
    rw [Nat.max_eq_right h]
    exact loopAux_builds_le env client fileP (max 1 beam) maxIters
      ⟨initial, initial, updates, false⟩
  · intro env orc s0 h0 h1
    unfold graphLoop
    exact graphRun_iters_le env orc s0.max_iters s0 (by omega)

/-- C4 witness: the amended bounds evaluated on concrete sessions. -/
theorem C4_termination_build_bound_witness :
    (runnerLoop envClean (some clientDoc) [] 3 2 0 []).builds ≤ 2 + 1 ∧
    (graphLoop envFail none sDirty).iters ≤ sDirty.max_iters :=
  ⟨C4_termination_build_bound.1 envClean (some clientDoc) [] 3 2 0 [] (by decide),
   C4_termination_build_bound.2 envFail none sDirty rfl (by decide)⟩

end LeanAgent
